import Mathlib

/-!
Verification development for torchbeast/polybeast.py (spiralpp).

Scalars are modelled as rationals, tensors as lists over their time or
batch axis, and the stats dictionary as an association list.  Opaque
neural-network modules are modelled as abstract function parameters, in
line with the specification, which places network architectures out of
scope.
-/

/-- Indexing a tensor with -1 along its first axis: the final entry of
a list (default 0 on the empty list). -/
def lastD (l : List ℚ) : ℚ := l.getD (l.length - 1) 0

/-! ## Checkpoint save and load (train, lines 680-691 and 749-765) -/

/-- The mutable training state that the checkpoint record captures:
policy weights (model), discriminator weights (D), both optimizer
states, both learning-rate-schedule states, and the stats mapping. -/
structure TrainState where
  model : List ℚ
  d : List ℚ
  optimizerState : List ℚ
  dOptimizerState : List ℚ
  schedulerState : ℚ
  dSchedulerState : ℚ
  stats : List (String × Int)
deriving DecidableEq

/-- A value stored under one key of the checkpoint record. -/
inductive CkptValue where
  | weights (w : List ℚ)
  | optState (o : List ℚ)
  | schedState (s : ℚ)
  | statsMap (m : List (String × Int))
  | flagsDump (f : List (String × String))
deriving DecidableEq

/-- The checkpoint function of train (lines 753-765): a record keyed by
fixed field names, one per saved component, plus the flags dump. -/
def checkpointSave (st : TrainState) (flagsDump : List (String × String)) :
    List (String × CkptValue) :=
  [ ("model_state_dict", CkptValue.weights st.model),
    ("D_state_dict", CkptValue.weights st.d),
    ("optimizer_state_dict", CkptValue.optState st.optimizerState),
    ("D_optimizer_state_dict", CkptValue.optState st.dOptimizerState),
    ("scheduler_state_dict", CkptValue.schedState st.schedulerState),
    ("D_scheduler_state_dict", CkptValue.schedState st.dSchedulerState),
    ("stats", CkptValue.statsMap st.stats),
    ("flags", CkptValue.flagsDump flagsDump) ]

/-- Dictionary access on the checkpoint record. -/
def ckptGet (k : String) : List (String × CkptValue) → Option CkptValue
  | [] => none
  | (k2, v) :: rest => if k2 = k then some v else ckptGet k rest

/-- Projection of a weights entry. -/
def asWeights : Option CkptValue → Option (List ℚ)
  | some (CkptValue.weights w) => some w
  | _ => none

/-- Projection of an optimizer-state entry. -/
def asOptState : Option CkptValue → Option (List ℚ)
  | some (CkptValue.optState o) => some o
  | _ => none

/-- Projection of a schedule-state entry. -/
def asSchedState : Option CkptValue → Option ℚ
  | some (CkptValue.schedState s) => some s
  | _ => none

/-- Projection of the stats entry. -/
def asStatsMap : Option CkptValue → Option (List (String × Int))
  | some (CkptValue.statsMap m) => some m
  | _ => none

/-- The checkpoint-loading block of train (lines 680-691), translated
key for key from the source.  Note that the source loads the policy
scheduler from the key D_scheduler_state_dict (line 688) and the
discriminator scheduler from the key scheduler_state_dict (line 689). -/
def checkpointLoad (c : List (String × CkptValue)) (st : TrainState) :
    Option TrainState := do
  let m ← asWeights (ckptGet "model_state_dict" c)
  let dw ← asWeights (ckptGet "D_state_dict" c)
  let o ← asOptState (ckptGet "optimizer_state_dict" c)
  let dOpt ← asOptState (ckptGet "D_optimizer_state_dict" c)
  let sched ← asSchedState (ckptGet "D_scheduler_state_dict" c)
  let dSched ← asSchedState (ckptGet "scheduler_state_dict" c)
  let stats ← asStatsMap (ckptGet "stats" c)
  pure { st with
    model := m, d := dw, optimizerState := o, dOptimizerState := dOpt,
    schedulerState := sched, dSchedulerState := dSched, stats := stats }

/-- A concrete training state whose two schedule states differ, as they
do in practice (the two schedules carry different base learning rates:
0.0003 for the policy and 0.0001 for the discriminator). -/
def demoTrainState : TrainState :=
  { model := [1], d := [2], optimizerState := [3], dOptimizerState := [4],
    schedulerState := 3, dSchedulerState := 1,
    stats := [("step", 1280)] }

/-! ## Condition-image refetch in the inference loop (lines 186-194) -/

/-- The image-refetch step of the inference loop, translated from the
source: if any done flag in the batch is set, one image per batch row
(the second dimension of done, here the length of the done list) is
fetched from the image-supply queue and the fetched images are stacked
in batch order; otherwise the incoming image batch is kept.  Returns
the resulting image batch, the remaining queue, and the number of
fetches performed. -/
def inferenceRefetch (done : List Bool) (image queue : List ℚ) :
    List ℚ × List ℚ × Nat :=
  if done.any id then
    (queue.take done.length, queue.drop done.length, done.length)
  else
    (image, queue, 0)

/-- The number of batch rows whose episode ended. -/
def doneCount (done : List Bool) : Nat := (done.filter id).length

/-! ## Snapshot republication via state-dict copy (lines 356 and 447) -/

/-- One step of a state-dict copy: write the value of one source entry
into the entry of the same name in the target. -/
def loadStateDictStep (target : List (String × ℚ)) (kv : String × ℚ) :
    List (String × ℚ) :=
  target.map (fun p => if p.1 = kv.1 then (p.1, kv.2) else p)

/-- Copying a whole state dict into an existing module, parameter by
parameter in place, as load_state_dict does. -/
def loadStateDict (target source : List (String × ℚ)) : List (String × ℚ) :=
  source.foldl loadStateDictStep target

/-- The sequence of snapshot states observable while a state-dict copy
is in progress: the state before any copy, after each single-parameter
copy, and the final state. -/
def loadStateDictStates (target source : List (String × ℚ)) :
    List (List (String × ℚ)) :=
  source.scanl loadStateDictStep target

/-- The claim of wholesale replacement, formalized: every state
observable during the republication is either the old snapshot or the
new one, so no reader can see a mixture. -/
def wholesaleReplacement (target source : List (String × ℚ)) : Prop :=
  ∀ s ∈ loadStateDictStates target source,
    s = target ∨ s = loadStateDict target source

/-! ## The policy-learner loop as an ordered event trace (lines 247-375) -/

/-- The observable actions of one iteration of the learn loop, in the
order they appear in the source. -/
inductive LearnEvent where
  | queueGet
  | moveToDevice
  | dQueuePut
  | lockAcquire
  | zeroGrad
  | modelForward
  | dEvalForward
  | vtraceCall
  | lossBackward
  | clipGradNorm
  | optimizerStep
  | schedulerStep
  | actorModelLoad
  | statsUpdate
  | logStats
  | lockRelease
deriving DecidableEq

/-- One iteration of the learn loop (lines 247-375) as the sequence of
its observable actions, in source order: the batch is fetched and moved
to the device, the (frame, image) pair is put on the discriminator
queue (line 258), then the lock is acquired, the model and the frozen
discriminator are forwarded, V-trace and the losses are computed, the
optimizer and scheduler step, the actor-facing snapshot is overwritten
(line 356), stats are updated and the lock is released. -/
def learnIterationTrace : List LearnEvent :=
  [ LearnEvent.queueGet, LearnEvent.moveToDevice, LearnEvent.dQueuePut,
    LearnEvent.lockAcquire, LearnEvent.zeroGrad, LearnEvent.modelForward,
    LearnEvent.dEvalForward, LearnEvent.vtraceCall, LearnEvent.lossBackward,
    LearnEvent.clipGradNorm, LearnEvent.optimizerStep,
    LearnEvent.schedulerStep, LearnEvent.actorModelLoad,
    LearnEvent.statsUpdate, LearnEvent.logStats, LearnEvent.lockRelease ]

/-- Index of the first occurrence of an element in a list (length of
the list when absent). -/
def firstIdx {α : Type} [DecidableEq α] (e : α) : List α → Nat
  | [] => 0
  | x :: xs => if x = e then 0 else firstIdx e xs + 1

/-- Count of the occurrences of an element in a list. -/
def occCount {α : Type} [DecidableEq α] (e : α) (l : List α) : Nat :=
  (l.filter (fun x => x = e)).length

/-! ## Reward shaping by the frozen discriminator (learn, lines 282-303) -/

/-- In-place update of the last entry of a list, as the assignment
reward[-1] = reward[-1] + p does. -/
def updateLast (f : ℚ → ℚ) : List ℚ → List ℚ
  | [] => []
  | [x] => [f x]
  | x :: y :: xs => x :: updateLast f (y :: xs)

/-- The reward-shaping block of learn (lines 282-303), translated from
the source with the discriminator as an abstract function d on frames.
With use_tca, the discriminator output p is computed on every frame and
the reward becomes reward[1:] + (p[1:] - p[:-1]); otherwise p is
computed on the final frame only, added onto the final reward entry,
and the reward becomes reward[1:]. -/
def shapedReward (useTca : Bool) (d : ℚ → ℚ) (frames reward : List ℚ) :
    List ℚ :=
  if useTca then
    let p := frames.map d
    List.zipWith (· + ·) reward.tail
      (List.zipWith (· - ·) p.tail p.dropLast)
  else
    let p := d (lastD frames)
    (updateLast (fun r => r + p) reward).tail

/-! ## Time shift before the V-trace call (learn, lines 308-314) -/

/-- The environment-output tensors of a batch, one list per field along
the time axis. -/
structure EnvOut where
  frame : List ℚ
  reward : List ℚ
  done : List Bool
  episodeStep : List ℚ
  episodeReturn : List ℚ
deriving DecidableEq

/-- The agent-output tensors (actor or learner), one list per field
along the time axis. -/
structure AgentOut where
  action : List ℚ
  policyLogits : List ℚ
  baseline : List ℚ
deriving DecidableEq

/-- Dropping the first time step of every environment-output tensor. -/
def envTail (e : EnvOut) : EnvOut :=
  { frame := e.frame.tail, reward := e.reward.tail, done := e.done.tail,
    episodeStep := e.episodeStep.tail,
    episodeReturn := e.episodeReturn.tail }

/-- Dropping the first time step of every agent-output tensor. -/
def agentTail (a : AgentOut) : AgentOut :=
  { action := a.action.tail, policyLogits := a.policyLogits.tail,
    baseline := a.baseline.tail }

/-- Dropping the last time step of every agent-output tensor. -/
def agentDropLast (a : AgentOut) : AgentOut :=
  { action := a.action.dropLast, policyLogits := a.policyLogits.dropLast,
    baseline := a.baseline.dropLast }

/-- The result of the pre-V-trace shift. -/
structure ShiftResult where
  env : EnvOut
  actor : AgentOut
  learner : AgentOut
  bootstrapValue : ℚ
deriving DecidableEq

/-- The shift block of learn (lines 308-314): the bootstrap value is
the final learner baseline entry taken before the shift, the
environment and actor outputs drop their first time step, and the
learner outputs drop their last time step. -/
def timeShift (env : EnvOut) (actor learner : AgentOut) : ShiftResult :=
  { env := envTail env, actor := agentTail actor,
    learner := agentDropLast learner,
    bootstrapValue := lastD learner.baseline }

/-! ## V-trace (torchbeast/core/vtrace.py, called at lines 327-335) -/

/-- Modelled from the spec: the V-trace module (torchbeast/core/vtrace)
is not part of the provided sources, only its call site is.  One time
step of the V-trace input: the behavior-policy and target-policy
probabilities of the taken action, one entry per action component
(probabilities stand in for softmax of the logits, so identical logits
give identical probabilities and softmax outputs are nonzero), plus the
discount, reward and value estimate of the step. -/
structure VStep where
  behavior : List ℚ
  target : List ℚ
  discount : ℚ
  reward : ℚ
  value : ℚ
deriving DecidableEq

/-- Modelled from the spec: the importance weight of one step, the
product across action components of the target-policy probability over
the behavior-policy probability. -/
def importanceWeight (s : VStep) : ℚ :=
  (List.zipWith (· / ·) s.target s.behavior).prod

/-- Modelled from the spec: the importance weight clipped at the
truncation threshold rho-bar. -/
def clippedRho (rhoBar : ℚ) (s : VStep) : ℚ :=
  min (importanceWeight s) rhoBar

/-- Modelled from the spec: the backward recursion for the value
targets, vs[t] = V(x_t) + rho_t * (r_t + discount_t * vs[t+1] -
V(x_t)), seeded at the end by the bootstrap value.  The returned list
carries vs[0], ..., vs[T-1] followed by the seed vs[T] = bootstrap. -/
def vsFull (rhoBar : ℚ) (steps : List VStep) (bootstrap : ℚ) : List ℚ :=
  match steps with
  | [] => [bootstrap]
  | s :: rest =>
    let tail := vsFull rhoBar rest bootstrap
    let vsNext := tail.headD bootstrap
    (s.value + clippedRho rhoBar s *
      (s.reward + s.discount * vsNext - s.value)) :: tail

/-- Modelled from the spec: the value targets returned by V-trace (the
seed entry at the horizon is internal to the recursion). -/
def vtraceVs (rhoBar : ℚ) (steps : List VStep) (bootstrap : ℚ) : List ℚ :=
  (vsFull rhoBar steps bootstrap).dropLast

/-- Modelled from the spec: the policy-gradient advantages,
rho_t * (r_t + discount_t * vs[t+1] - V(x_t)). -/
def pgAdvantages (rhoBar : ℚ) (steps : List VStep) (bootstrap : ℚ) :
    List ℚ :=
  match steps with
  | [] => []
  | s :: rest =>
    let vsNext := (vsFull rhoBar rest bootstrap).headD bootstrap
    clippedRho rhoBar s * (s.reward + s.discount * vsNext - s.value) ::
      pgAdvantages rhoBar rest bootstrap

/-- The standard n-step TD target with the same seed: td[t] = r_t +
discount_t * td[t+1], td[T] = bootstrap. -/
def tdFull (steps : List VStep) (bootstrap : ℚ) : List ℚ :=
  match steps with
  | [] => [bootstrap]
  | s :: rest =>
    let tail := tdFull rest bootstrap
    (s.reward + s.discount * tail.headD bootstrap) :: tail

/-! ## The stats step counter (learn, line 358) -/

/-- Dictionary lookup with the Python get default semantics. -/
def findStat (k : String) : List (String × Nat) → Option Nat
  | [] => none
  | (k2, v) :: rest => if k2 = k then some v else findStat k rest

/-- Dictionary assignment: overwrite the entry if present, append it
otherwise. -/
def setStat (k : String) (v : Nat) : List (String × Nat) →
    List (String × Nat)
  | [] => [(k, v)]
  | (k2, v2) :: rest =>
    if k2 = k then (k, v) :: rest else (k2, v2) :: setStat k v rest

/-- stats.get("step", 0). -/
def statsGetStep (stats : List (String × Nat)) : Nat :=
  (findStat "step" stats).getD 0

/-- Line 358 of the source: stats["step"] = stats.get("step", 0) +
flags.unroll_length * flags.batch_size. -/
def learnStepUpdate (u b : Nat) (stats : List (String × Nat)) :
    List (String × Nat) :=
  setStat "step" (statsGetStep stats + u * b) stats

/-- The stats dictionary after n completed learner updates. -/
def statsAfter (u b : Nat) (stats0 : List (String × Nat)) :
    Nat → List (String × Nat)
  | 0 => stats0
  | n + 1 => learnStepUpdate u b (statsAfter u b stats0 n)

/-! ## The discriminator-learner iteration (learn_D, lines 393-455) -/

/-- Line 378 of the source. -/
def realLabel : ℚ := 1

/-- Line 379 of the source. -/
def fakeLabel : ℚ := 0

/-- Tensor repeat along the first axis, as label.repeat(n) does. -/
def repeatList (l : List ℚ) (n : Nat) : List ℚ :=
  (List.replicate n l).flatten

/-- The observable data of one learn_D iteration. -/
structure DIterObserved where
  fakeInput : List ℚ
  realTargets : List ℚ
  fakeTargets : List ℚ
  realLossVal : ℚ
  fakeLossVal : ℚ
  reportedLoss : ℚ
deriving DecidableEq

/-- One iteration of learn_D (lines 393-455), translated from the
source with the discriminator as an abstract function dApply from a
batch of samples to a list of logits and the binary cross-entropy with
logits as an abstract function bce from logits and targets to a loss.
The real batch (B samples) is scored against a label tensor filled
with real_label; the fake unroll (T+1 time steps of B samples) is
flattened along time and scored against that label tensor refilled
with fake_label and repeated T+1 times; the reported loss is the sum
of the two terms. -/
def learnDIter (bce : List ℚ → List ℚ → ℚ) (dApply : List ℚ → List ℚ)
    (bSize tLen : Nat) (fake : List (List ℚ)) (real : List ℚ) :
    DIterObserved :=
  let pReal := dApply real
  let label := List.replicate bSize realLabel
  let realLoss := bce pReal label
  let fakeFlat := fake.flatten
  let pFake := dApply fakeFlat
  let labelFake := repeatList (List.replicate bSize fakeLabel) (tLen + 1)
  let fakeLoss := bce pFake labelFake
  { fakeInput := fakeFlat, realTargets := label, fakeTargets := labelFake,
    realLossVal := realLoss, fakeLossVal := fakeLoss,
    reportedLoss := realLoss + fakeLoss }

/-- The observable actions of one learn_D iteration. -/
inductive DEvent where
  | queueGet
  | lockAcquire
  | zeroGrad
  | forwardReal
  | realBackward
  | clipGrad
  | flattenFake
  | forwardFake
  | fakeBackward
  | sumLoss
  | optStep
  | schedStep
  | copyToEval
  | statsWrite
  | lockRelease
deriving DecidableEq

/-- One iteration of learn_D as the sequence of its observable actions,
in source order (lines 393-455). -/
def learnDTrace : List DEvent :=
  [ DEvent.queueGet, DEvent.lockAcquire, DEvent.zeroGrad,
    DEvent.forwardReal, DEvent.realBackward, DEvent.clipGrad,
    DEvent.flattenFake, DEvent.forwardFake, DEvent.fakeBackward,
    DEvent.sumLoss, DEvent.clipGrad, DEvent.optStep, DEvent.schedStep,
    DEvent.copyToEval, DEvent.statsWrite, DEvent.lockRelease ]

/-- The zero-based positions at which an element occurs in a list. -/
def positions {α : Type} [DecidableEq α] (e : α) (l : List α) : List Nat :=
  (l.enum.filter (fun p => p.2 = e)).map (fun p => p.1)

/-! ## The pipes_basename check in main (lines 992-994) -/

/-- The startswith check of the source, at the level of character
lists. -/
def startsWithStr (pre s : String) : Bool :=
  s.data.take pre.data.length == pre.data

/-- The actions main can take after the pipes_basename check. -/
inductive MainEvent where
  | spawnServers
  | runTrain
  | runTest
deriving DecidableEq

/-- The outcome of running main up to the dispatch on mode: the actions
performed and the raised exception, if any. -/
structure MainResult where
  events : List MainEvent
  raised : Option String
deriving DecidableEq

/-- The entry logic of main (lines 992-1060): the pipes_basename flag
is checked first; on failure an exception is raised before any server
is spawned or any mode is run, and on success the servers are
optionally spawned and the selected mode runs. -/
def mainRun (pipesBasename mode : String) (startServers : Bool) :
    MainResult :=
  if startsWithStr "unix:" pipesBasename then
    { events :=
        (if startServers then [MainEvent.spawnServers] else []) ++
          (if mode = "train" then [MainEvent.runTrain]
           else [MainEvent.runTest]),
      raised := none }
  else
    { events := [],
      raised := some "--pipes_basename has to be of the form unix:/some/path." }

/-- C1: loading a checkpoint immediately after writing it does not
restore the schedule states to the object they were saved from: the
policy scheduler receives the saved state of the discriminator
scheduler and vice versa, because the load block reads each scheduler
from the field of the other.  All other fields, including stats,
round-trip. -/
theorem C1_checkpoint_scheduler_fields_swapped_on_load :
    checkpointLoad (checkpointSave demoTrainState []) demoTrainState =
      some { demoTrainState with
              schedulerState := demoTrainState.dSchedulerState,
              dSchedulerState := demoTrainState.schedulerState }
    ∧ demoTrainState.schedulerState ≠ demoTrainState.dSchedulerState := by
  constructor
  · rfl
  · decide

/-! ## Helper lemmas -/

theorem getD_tail_eq {α : Type} (l : List α) (d : α) (i : Nat) :
    l.tail.getD i d = l.getD (i + 1) d := by
  cases l <;> rfl

theorem updateLast_length (f : ℚ → ℚ) (l : List ℚ) :
    (updateLast f l).length = l.length := by
  induction l with
  | nil => rfl
  | cons x xs ih =>
    cases xs with
    | nil => rfl
    | cons y ys => simpa [updateLast] using ih

theorem getD_updateLast_of_lt (f : ℚ → ℚ) (l : List ℚ) (i : Nat)
    (h : i + 1 < l.length) : (updateLast f l).getD i 0 = l.getD i 0 := by
  induction l generalizing i with
  | nil => simp at h
  | cons x xs ih =>
    cases xs with
    | nil => simp at h
    | cons y ys =>
      cases i with
      | zero => rfl
      | succ j =>
        have hj : j + 1 < (y :: ys).length := by
          simpa [Nat.succ_lt_succ_iff] using h
        simpa [updateLast] using ih j hj

theorem getD_updateLast_last (f : ℚ → ℚ) (l : List ℚ) (n : Nat)
    (h : l.length = n + 1) :
    (updateLast f l).getD n 0 = f (l.getD n 0) := by
  induction l generalizing n with
  | nil => simp at h
  | cons x xs ih =>
    cases xs with
    | nil =>
      have : n = 0 := by simpa using h
      subst this
      rfl
    | cons y ys =>
      cases n with
      | zero => simp at h
      | succ m =>
        have hm : (y :: ys).length = m + 1 := by simpa using h
        simpa [updateLast] using ih m hm

theorem getD_zipWith_eq (g : ℚ → ℚ → ℚ) (a b : List ℚ) (i : Nat)
    (ha : i < a.length) (hb : i < b.length) :
    (List.zipWith g a b).getD i 0 = g (a.getD i 0) (b.getD i 0) := by
  induction a generalizing b i with
  | nil => simp at ha
  | cons x xs ih =>
    cases b with
    | nil => simp at hb
    | cons y ys =>
      cases i with
      | zero => rfl
      | succ j =>
        have hja : j < xs.length := by simpa [Nat.succ_lt_succ_iff] using ha
        have hjb : j < ys.length := by simpa [Nat.succ_lt_succ_iff] using hb
        simpa using ih ys j hja hjb

theorem getD_map_eq (f : ℚ → ℚ) (l : List ℚ) (i : Nat) (h : i < l.length) :
    (l.map f).getD i 0 = f (l.getD i 0) := by
  induction l generalizing i with
  | nil => simp at h
  | cons x xs ih =>
    cases i with
    | zero => rfl
    | succ j =>
      have hj : j < xs.length := by simpa [Nat.succ_lt_succ_iff] using h
      simpa using ih j hj

theorem getD_dropLast_eq (l : List ℚ) (i : Nat) (h : i + 1 < l.length) :
    l.dropLast.getD i 0 = l.getD i 0 := by
  induction l generalizing i with
  | nil => simp at h
  | cons x xs ih =>
    cases xs with
    | nil => simp at h
    | cons y ys =>
      cases i with
      | zero => rfl
      | succ j =>
        have hj : j + 1 < (y :: ys).length := by
          simpa [Nat.succ_lt_succ_iff] using h
        simpa using ih j hj

theorem getD_take_eq {α : Type} (l : List α) (d : α) (n i : Nat)
    (h : i < n) : (l.take n).getD i d = l.getD i d := by
  induction l generalizing n i with
  | nil => simp
  | cons x xs ih =>
    cases n with
    | zero => simp at h
    | succ m =>
      cases i with
      | zero => rfl
      | succ j =>
        have hj : j < m := by simpa [Nat.succ_lt_succ_iff] using h
        simpa using ih m j hj

theorem zipWith_div_self_prod (l : List ℚ) (h : ∀ p ∈ l, p ≠ 0) :
    (List.zipWith (· / ·) l l).prod = 1 := by
  induction l with
  | nil => rfl
  | cons x xs ih =>
    have hx : x ≠ 0 := h x (List.mem_cons_self x xs)
    have hxs : ∀ p ∈ xs, p ≠ 0 := fun p hp => h p (List.mem_cons_of_mem x hp)
    rw [List.zipWith_cons_cons, List.prod_cons, div_self hx, ih hxs, one_mul]

theorem findStat_setStat_self (k : String) (v : Nat)
    (s : List (String × Nat)) : findStat k (setStat k v s) = some v := by
  induction s with
  | nil => simp [setStat, findStat]
  | cons p rest ih =>
    by_cases h : p.1 = k
    · simp [setStat, findStat, h]
    · simp [setStat, findStat, h, ih]

theorem statsGetStep_learnStepUpdate (u b : Nat) (s : List (String × Nat)) :
    statsGetStep (learnStepUpdate u b s) = statsGetStep s + u * b := by
  simp [statsGetStep, learnStepUpdate, findStat_setStat_self]

theorem flatten_length_const (b : Nat) (L : List (List ℚ))
    (h : ∀ r ∈ L, r.length = b) : L.flatten.length = L.length * b := by
  induction L with
  | nil => simp
  | cons r rest ih =>
    have hr : r.length = b := h r (List.mem_cons_self r rest)
    have hrest : ∀ x ∈ rest, x.length = b :=
      fun x hx => h x (List.mem_cons_of_mem r hx)
    simp [hr, ih hrest, Nat.succ_mul, Nat.add_comm]

theorem repeatList_replicate (b n : Nat) (x : ℚ) :
    repeatList (List.replicate b x) n = List.replicate (n * b) x := by
  induction n with
  | zero => simp [repeatList]
  | succ m ih =>
    calc repeatList (List.replicate b x) (m + 1)
        = List.replicate b x ++ repeatList (List.replicate b x) m := by
          simp [repeatList, List.replicate_succ]
      _ = List.replicate b x ++ List.replicate (m * b) x := by rw [ih]
      _ = List.replicate (b + m * b) x := by rw [List.replicate_add]
      _ = List.replicate ((m + 1) * b) x := by ring_nf

/-! ## Claim theorems -/

/-- C2, counterexample: on the batch with done flags [true, false],
previous images [10, 20] and queue [30, 40], the inference loop makes
two fetches although only one episode ended, and the row whose episode
did not end loses its previous condition image. -/
theorem C2_counterexample_refetch_not_per_ended_row :
    (inferenceRefetch [true, false] [10, 20] [30, 40]).2.2 ≠
        doneCount [true, false]
    ∧ (inferenceRefetch [true, false] [10, 20] [30, 40]).1.getD 1 0 ≠
        ([10, 20] : List ℚ).getD 1 0 := by
  constructor
  · decide
  · decide

/-- C2, amended: when at least one done flag in the batch is set, the
inference loop fetches one image from the image-supply queue for every
batch row (not only the ended rows), assembling the fetched images in
batch order, so every row receives a fresh condition image; when no
done flag is set, every row keeps its previous condition image and
nothing is fetched. -/
theorem C2_amended_refetch_every_row (done : List Bool)
    (image queue : List ℚ) :
    (done.any id = true →
       (inferenceRefetch done image queue).2.2 = done.length
       ∧ ∀ i, i < done.length →
           (inferenceRefetch done image queue).1.getD i 0 =
             queue.getD i 0)
    ∧ (done.any id = false →
       (inferenceRefetch done image queue).1 = image
       ∧ (inferenceRefetch done image queue).2.2 = 0) := by
  constructor
  · intro h
    refine ⟨by simp [inferenceRefetch, h], ?_⟩
    intro i hi
    simp only [inferenceRefetch, h, if_true]
    exact getD_take_eq queue 0 done.length i hi
  · intro h
    constructor <;> simp [inferenceRefetch, h]

/-- C2, witness for the amended theorem at a concrete input: with done
flags [true, false] and queue [30, 40], both rows receive the queued
images in batch order, and with no done flag set the previous images
[10, 20] are kept. -/
theorem C2_amended_witness :
    (inferenceRefetch [true, false] [10, 20] [30, 40]).2.2 = 2
    ∧ (inferenceRefetch [true, false] [10, 20] [30, 40]).1.getD 0 0 = 30
    ∧ (inferenceRefetch [true, false] [10, 20] [30, 40]).1.getD 1 0 = 40
    ∧ (inferenceRefetch [false, false] [10, 20] [30, 40]).1 = [10, 20] := by
  have h := C2_amended_refetch_every_row [true, false] [10, 20] [30, 40]
  have h2 := C2_amended_refetch_every_row [false, false] [10, 20] [30, 40]
  refine ⟨(h.1 (by decide)).1, ?_, ?_, (h2.2 (by decide)).1⟩
  · exact ((h.1 (by decide)).2 0 (by decide)).trans (by decide)
  · exact ((h.1 (by decide)).2 1 (by decide)).trans (by decide)

/-- C3, counterexample: for a two-parameter snapshot updated from old
values (0, 0) to new values (1, 1), the in-place state-dict copy
exposes an observable intermediate state that is neither the old
snapshot nor the new one, so the republication is not a wholesale
replacement. -/
theorem C3_counterexample_not_wholesale :
    ¬ wholesaleReplacement [("weight", 0), ("bias", 0)]
        [("weight", 1), ("bias", 1)] := by
  unfold wholesaleReplacement
  decide

/-- C3, amended: each republish copies the parameters of the learner
model into the existing snapshot one parameter at a time in place
(load_state_dict); the final state carries exactly the new values, but
whenever at least two parameters change value a reader can observe an
intermediate state that mixes the new value of the first parameter
with the old value of the second. -/
theorem C3_amended_inplace_copy_mixes (a b : String) (va vb va2 vb2 : ℚ)
    (hab : a ≠ b) (ha : va ≠ va2) (hb : vb ≠ vb2) :
    loadStateDict [(a, va), (b, vb)] [(a, va2), (b, vb2)] =
        [(a, va2), (b, vb2)]
    ∧ [(a, va2), (b, vb)] ∈
        loadStateDictStates [(a, va), (b, vb)] [(a, va2), (b, vb2)]
    ∧ [(a, va2), (b, vb)] ≠ [(a, va), (b, vb)]
    ∧ [(a, va2), (b, vb)] ≠ [(a, va2), (b, vb2)] := by
  have hba : b ≠ a := Ne.symm hab
  refine ⟨?_, ?_, ?_, ?_⟩
  · simp [loadStateDict, loadStateDictStep, hab, hba]
  · simp [loadStateDictStates, loadStateDictStep, List.scanl, hab, hba]
  · simp [List.cons.injEq, Prod.mk.injEq, Ne.symm ha]
  · simp [List.cons.injEq, Prod.mk.injEq, hb]

/-- C3, witness for the amended theorem at a concrete snapshot with
parameters weight and bias changing from 0 to 1. -/
theorem C3_amended_witness :
    loadStateDict [("weight", 0), ("bias", 0)] [("weight", 1), ("bias", 1)] =
        [("weight", 1), ("bias", 1)]
    ∧ [("weight", 1), ("bias", 0)] ∈
        loadStateDictStates [("weight", 0), ("bias", 0)]
          [("weight", 1), ("bias", 1)]
    ∧ ([("weight", 1), ("bias", 0)] : List (String × ℚ)) ≠
        [("weight", 0), ("bias", 0)]
    ∧ ([("weight", 1), ("bias", 0)] : List (String × ℚ)) ≠
        [("weight", 1), ("bias", 1)] :=
  C3_amended_inplace_copy_mixes "weight" "bias" 0 0 1 1
    (by decide) (by decide) (by decide)

/-- C4, counterexample: in the learn-loop iteration, the (frame, image)
pair is put on the discriminator queue strictly before the optimizer
step, so the claim that the pair is enqueued only after the policy
update is false. -/
theorem C4_counterexample_put_not_after_update :
    LearnEvent.dQueuePut ∈ learnIterationTrace
    ∧ LearnEvent.optimizerStep ∈ learnIterationTrace
    ∧ LearnEvent.actorModelLoad ∈ learnIterationTrace
    ∧ ¬ (firstIdx LearnEvent.optimizerStep learnIterationTrace <
          firstIdx LearnEvent.dQueuePut learnIterationTrace) := by
  decide

/-- C4, amended: in every iteration of the policy-learner loop the
(generated frame, real frame) pair is put on the discriminator-learner
queue exactly once, at the start of the iteration, before the learner
lock is acquired and hence before the optimizer step and before the
actor-facing snapshot is overwritten. -/
theorem C4_amended_put_before_update :
    firstIdx LearnEvent.dQueuePut learnIterationTrace <
      firstIdx LearnEvent.lockAcquire learnIterationTrace
    ∧ firstIdx LearnEvent.dQueuePut learnIterationTrace <
      firstIdx LearnEvent.optimizerStep learnIterationTrace
    ∧ firstIdx LearnEvent.dQueuePut learnIterationTrace <
      firstIdx LearnEvent.actorModelLoad learnIterationTrace
    ∧ occCount LearnEvent.dQueuePut learnIterationTrace = 1
    ∧ LearnEvent.lockAcquire ∈ learnIterationTrace
    ∧ LearnEvent.optimizerStep ∈ learnIterationTrace
    ∧ LearnEvent.actorModelLoad ∈ learnIterationTrace := by
  decide

/-- C5: degenerate points of the V-trace recursion (modelled from the
spec, since the vtrace module is not among the provided sources).  For
any truncation threshold at least 1: (a) on a single-step input with
zero discount, the full backward scan ends in the supplied bootstrap
value (the value target at the horizon), the single value target is
V + rho * (reward - V), and the policy-gradient advantage reduces to
rho * (reward - V); (b) when behavior and target probabilities agree
(identical logits) and are nonzero, every clipped importance weight
equals 1 and the value targets satisfy the standard n-step TD
recursion vs[t] = r_t + discount_t * vs[t+1] seeded by the bootstrap
value. -/
theorem C5_vtrace_degenerate_points (rhoBar : ℚ) (hbar : 1 ≤ rhoBar) :
    (∀ (s : VStep) (b : ℚ), s.discount = 0 →
       vsFull rhoBar [s] b =
           [s.value + clippedRho rhoBar s * (s.reward - s.value), b]
       ∧ lastD (vsFull rhoBar [s] b) = b
       ∧ pgAdvantages rhoBar [s] b =
           [clippedRho rhoBar s * (s.reward - s.value)])
    ∧ (∀ (steps : List VStep) (b : ℚ),
       (∀ s ∈ steps, s.target = s.behavior ∧ ∀ p ∈ s.behavior, p ≠ 0) →
       (∀ s ∈ steps, clippedRho rhoBar s = 1)
       ∧ vsFull rhoBar steps b = tdFull steps b) := by
  constructor
  · intro s b h0
    refine ⟨?_, ?_, ?_⟩
    · simp [vsFull, h0]
    · simp [vsFull, lastD, h0]
    · simp [pgAdvantages, vsFull, h0]
  · intro steps
    induction steps with
    | nil =>
      intro b _
      exact ⟨by simp, rfl⟩
    | cons s rest ih =>
      intro b hsteps
      have hs := hsteps s (List.mem_cons_self s rest)
      have hrest : ∀ t ∈ rest,
          t.target = t.behavior ∧ ∀ p ∈ t.behavior, p ≠ 0 :=
        fun t ht => hsteps t (List.mem_cons_of_mem s ht)
      obtain ⟨hAll, hEq⟩ := ih b hrest
      have hrho : clippedRho rhoBar s = 1 := by
        unfold clippedRho importanceWeight
        rw [hs.1, zipWith_div_self_prod s.behavior hs.2]
        exact min_eq_left hbar
      refine ⟨?_, ?_⟩
      · intro t ht
        rcases List.mem_cons.mp ht with h1 | h2
        · rw [h1]; exact hrho
        · exact hAll t h2
      · simp only [vsFull, tdFull]
        rw [hrho, hEq]
        congr 1
        ring

/-- C5, witness: at threshold 1, a concrete single step with zero
discount yields value targets [3, 7] with bootstrap 7 at the horizon
and advantage -2, and a concrete on-policy two-step input reproduces
the n-step TD target exactly. -/
theorem C5_vtrace_witness :
    vsFull 1 [⟨[1/2], [1/2], 0, 3, 5⟩] 7 = [3, 7]
    ∧ lastD (vsFull 1 [⟨[1/2], [1/2], 0, 3, 5⟩] 7) = 7
    ∧ pgAdvantages 1 [⟨[1/2], [1/2], 0, 3, 5⟩] 7 = [-2]
    ∧ vsFull 1 [⟨[2/3], [2/3], 1/2, 3, 5⟩, ⟨[1/3], [1/3], 1/4, 1, 2⟩] 7 =
        tdFull [⟨[2/3], [2/3], 1/2, 3, 5⟩, ⟨[1/3], [1/3], 1/4, 1, 2⟩] 7 := by
  have h := C5_vtrace_degenerate_points 1 le_rfl
  have hA := h.1 ⟨[1/2], [1/2], 0, 3, 5⟩ 7 rfl
  have hB := h.2 [⟨[2/3], [2/3], 1/2, 3, 5⟩, ⟨[1/3], [1/3], 1/4, 1, 2⟩] 7
    (by
      intro s hs
      rcases List.mem_cons.mp hs with rfl | hs2
      · exact ⟨rfl, by norm_num⟩
      · rcases List.mem_cons.mp hs2 with rfl | hs3
        · exact ⟨rfl, by norm_num⟩
        · simp at hs3)
  have hc : clippedRho 1 ⟨[1/2], [1/2], 0, 3, 5⟩ = 1 := by
    norm_num [clippedRho, importanceWeight]
  refine ⟨?_, hA.2.1, ?_, hB.2⟩
  · rw [hA.1, hc]; norm_num
  · rw [hA.2.2, hc]; norm_num

/-- C6: in the policy-learner iteration, the discriminator reward
bonus is added into the environment reward before the V-trace call
(the discriminator forward precedes the V-trace call in the iteration
trace), the discriminator is evaluated on the final frame only when
temporal credit assignment is disabled and on every frame when it is
enabled, and in both modes the reward sequence passed onward drops its
first entry: without TCA the shaped rewards are reward[1..T] with the
discriminator output on the final frame added to the last entry; with
TCA the shaped reward at t is reward[t+1] + (d(frame[t+1]) -
d(frame[t])). -/
theorem C6_reward_shaping_pipeline (d : ℚ → ℚ) (frames reward : List ℚ)
    (tLen : Nat) (hf : frames.length = tLen + 1)
    (hr : reward.length = tLen + 1) :
    ((shapedReward false d frames reward).length = tLen
      ∧ (∀ i, i + 1 < tLen →
          (shapedReward false d frames reward).getD i 0 =
            reward.getD (i + 1) 0)
      ∧ (0 < tLen →
          (shapedReward false d frames reward).getD (tLen - 1) 0 =
            reward.getD tLen 0 + d (frames.getD tLen 0)))
    ∧ ((shapedReward true d frames reward).length = tLen
      ∧ ∀ i, i < tLen →
          (shapedReward true d frames reward).getD i 0 =
            reward.getD (i + 1) 0 +
              (d (frames.getD (i + 1) 0) - d (frames.getD i 0)))
    ∧ firstIdx LearnEvent.dEvalForward learnIterationTrace <
        firstIdx LearnEvent.vtraceCall learnIterationTrace := by
  have hlast : lastD frames = frames.getD tLen 0 := by
    rw [lastD, hf]
    norm_num
  refine ⟨⟨?_, ?_, ?_⟩, ⟨?_, ?_⟩, by decide⟩
  · simp [shapedReward, List.length_tail, updateLast_length, hr]
  · intro i hi
    have h1 : (shapedReward false d frames reward).getD i 0 =
        (updateLast (fun r => r + d (lastD frames)) reward).getD (i + 1) 0 := by
      simp only [shapedReward, Bool.false_eq_true, if_false]
      exact getD_tail_eq _ 0 i
    rw [h1]
    exact getD_updateLast_of_lt _ reward (i + 1) (by omega)
  · intro ht
    have h1 : (shapedReward false d frames reward).getD (tLen - 1) 0 =
        (updateLast (fun r => r + d (lastD frames)) reward).getD tLen 0 := by
      simp only [shapedReward, Bool.false_eq_true, if_false]
      have := getD_tail_eq
        (updateLast (fun r => r + d (lastD frames)) reward) 0 (tLen - 1)
      rw [this]
      congr 1
      omega
    rw [h1, getD_updateLast_last _ reward tLen hr, hlast]
  · simp [shapedReward, List.length_zipWith, List.length_tail,
      List.length_dropLast, hf, hr]
  · intro i hi
    have hp : (frames.map d).length = tLen + 1 := by simp [hf]
    have h1 : (shapedReward true d frames reward).getD i 0 =
        reward.tail.getD i 0 +
          (List.zipWith (· - ·) (frames.map d).tail
            (frames.map d).dropLast).getD i 0 := by
      simp only [shapedReward, if_true]
      exact getD_zipWith_eq _ _ _ i
        (by simp [hr]; omega)
        (by simp [List.length_zipWith, List.length_tail,
              List.length_dropLast, hp]; omega)
    rw [h1, getD_tail_eq,
      getD_zipWith_eq _ _ _ i
        (by simp [List.length_tail, hp]; omega)
        (by simp [List.length_dropLast, hp]; omega),
      getD_tail_eq, getD_dropLast_eq _ i (by rw [hp]; omega),
      getD_map_eq d frames (i + 1) (by omega),
      getD_map_eq d frames i (by omega)]

/-- C6, witness at a concrete input: frames [10, 20], rewards
[100, 200], identity discriminator; without TCA the shaped reward is
[220], with TCA it is [210]. -/
theorem C6_reward_shaping_witness :
    (shapedReward false (fun x => x) [10, 20] [100, 200]).getD 0 0 = 220
    ∧ (shapedReward true (fun x => x) [10, 20] [100, 200]).getD 0 0 = 210
    ∧ (shapedReward false (fun x => x) [10, 20] [100, 200]).length = 1
    ∧ (shapedReward true (fun x => x) [10, 20] [100, 200]).length = 1 := by
  have h := C6_reward_shaping_pipeline (fun x => x) [10, 20] [100, 200] 1
    rfl rfl
  refine ⟨?_, ?_, h.1.1, h.2.1.1⟩
  · exact (h.1.2.2 (by decide)).trans (by norm_num)
  · exact (h.2.1.2 0 (by decide)).trans (by norm_num)

/-- C7: before the V-trace call the batch is shifted so that
observation t aligns with action t: every environment-output and
actor-output tensor drops its first time step, every learner-output
tensor drops its last time step, and the bootstrap value is the final
learner baseline entry taken before the shift, that is the value
estimate at index T, one step past the shortened unroll of length T. -/
theorem C7_time_shift_alignment (env : EnvOut) (actor learner : AgentOut)
    (tLen : Nat) (hre : env.reward.length = tLen + 1)
    (hlb : learner.baseline.length = tLen + 1)
    (hlp : learner.policyLogits.length = tLen + 1) :
    (timeShift env actor learner).env.reward.length = tLen
    ∧ (∀ i, (timeShift env actor learner).env.frame.getD i 0 =
        env.frame.getD (i + 1) 0)
    ∧ (∀ i, (timeShift env actor learner).env.reward.getD i 0 =
        env.reward.getD (i + 1) 0)
    ∧ (∀ i, (timeShift env actor learner).env.done.getD i false =
        env.done.getD (i + 1) false)
    ∧ (∀ i, (timeShift env actor learner).actor.action.getD i 0 =
        actor.action.getD (i + 1) 0)
    ∧ (∀ i, (timeShift env actor learner).actor.policyLogits.getD i 0 =
        actor.policyLogits.getD (i + 1) 0)
    ∧ (timeShift env actor learner).learner.baseline.length = tLen
    ∧ (∀ i, i < tLen →
        (timeShift env actor learner).learner.baseline.getD i 0 =
          learner.baseline.getD i 0)
    ∧ (∀ i, i < tLen →
        (timeShift env actor learner).learner.policyLogits.getD i 0 =
          learner.policyLogits.getD i 0)
    ∧ (timeShift env actor learner).bootstrapValue =
        learner.baseline.getD tLen 0 := by
  refine ⟨?_, ?_, ?_, ?_, ?_, ?_, ?_, ?_, ?_, ?_⟩
  · simp [timeShift, envTail, hre]
  · intro i
    exact getD_tail_eq env.frame 0 i
  · intro i
    exact getD_tail_eq env.reward 0 i
  · intro i
    exact getD_tail_eq env.done false i
  · intro i
    exact getD_tail_eq actor.action 0 i
  · intro i
    exact getD_tail_eq actor.policyLogits 0 i
  · simp [timeShift, agentDropLast, hlb]
  · intro i hi
    exact getD_dropLast_eq learner.baseline i (by omega)
  · intro i hi
    exact getD_dropLast_eq learner.policyLogits i (by omega)
  · show lastD learner.baseline = learner.baseline.getD tLen 0
    rw [lastD, hlb]
    norm_num

/-- C7, witness at a concrete two-step batch: the shifted reward keeps
the second entry, the shortened learner baseline has length 1 and keeps
its first entry, and the bootstrap value is the pre-shift final
baseline entry. -/
theorem C7_time_shift_witness :
    (timeShift ⟨[1, 2], [3, 4], [false, true], [0, 1], [0, 3]⟩
        ⟨[5, 6], [7, 8], [9, 10]⟩ ⟨[11, 12], [13, 14], [15, 16]⟩).env.reward.getD 0 0 = 4
    ∧ (timeShift ⟨[1, 2], [3, 4], [false, true], [0, 1], [0, 3]⟩
        ⟨[5, 6], [7, 8], [9, 10]⟩ ⟨[11, 12], [13, 14], [15, 16]⟩).learner.baseline.length = 1
    ∧ (timeShift ⟨[1, 2], [3, 4], [false, true], [0, 1], [0, 3]⟩
        ⟨[5, 6], [7, 8], [9, 10]⟩ ⟨[11, 12], [13, 14], [15, 16]⟩).learner.baseline.getD 0 0 = 15
    ∧ (timeShift ⟨[1, 2], [3, 4], [false, true], [0, 1], [0, 3]⟩
        ⟨[5, 6], [7, 8], [9, 10]⟩ ⟨[11, 12], [13, 14], [15, 16]⟩).bootstrapValue = 16 := by
  have h := C7_time_shift_alignment
    ⟨[1, 2], [3, 4], [false, true], [0, 1], [0, 3]⟩
    ⟨[5, 6], [7, 8], [9, 10]⟩ ⟨[11, 12], [13, 14], [15, 16]⟩ 1 rfl rfl rfl
  refine ⟨?_, h.2.2.2.2.2.2.1, ?_, ?_⟩
  · exact (h.2.2.1 0).trans (by decide)
  · exact (h.2.2.2.2.2.2.2.1 0 (by decide)).trans (by decide)
  · exact h.2.2.2.2.2.2.2.2.2.trans (by decide)

/-- C8: for every number of completed policy-learner updates n, the
step counter equals its starting value (0 when the key is absent, the
checkpointed value otherwise) plus n * unroll_length * batch_size, and
when unroll_length * batch_size is positive the counter is strictly
monotone in the number of updates. -/
theorem C8_step_counter (u b : Nat) (stats0 : List (String × Nat)) :
    (∀ n, statsGetStep (statsAfter u b stats0 n) =
        statsGetStep stats0 + n * (u * b))
    ∧ (0 < u * b → ∀ m n, m < n →
        statsGetStep (statsAfter u b stats0 m) <
          statsGetStep (statsAfter u b stats0 n)) := by
  have hclosed : ∀ n, statsGetStep (statsAfter u b stats0 n) =
      statsGetStep stats0 + n * (u * b) := by
    intro n
    induction n with
    | zero => simp [statsAfter]
    | succ m ih =>
      calc statsGetStep (statsAfter u b stats0 (m + 1))
          = statsGetStep (statsAfter u b stats0 m) + u * b := by
            simpa [statsAfter] using
              statsGetStep_learnStepUpdate u b (statsAfter u b stats0 m)
        _ = statsGetStep stats0 + m * (u * b) + u * b := by rw [ih]
        _ = statsGetStep stats0 + (m + 1) * (u * b) := by ring
  refine ⟨hclosed, ?_⟩
  intro hub m n hmn
  rw [hclosed m, hclosed n]
  exact Nat.add_lt_add_left (Nat.mul_lt_mul_of_pos_right hmn hub) _

/-- C8, witness: starting from a checkpointed step value 128 with
unroll length 20 and batch size 64, two updates give 128 + 2 * 1280 and
the counter strictly increases from the first to the second update. -/
theorem C8_step_counter_witness :
    statsGetStep (statsAfter 20 64 [("step", 128)] 2) =
        statsGetStep [("step", 128)] + 2 * (20 * 64)
    ∧ 0 < 20 * 64
    ∧ statsGetStep (statsAfter 20 64 [("step", 128)] 1) <
        statsGetStep (statsAfter 20 64 [("step", 128)] 2) := by
  have h := C8_step_counter 20 64 [("step", 128)]
  exact ⟨h.1 2, by decide, h.2 (by decide) 1 2 (by decide)⟩

/-- C9: one discriminator-learner iteration scores the real batch
against a target of B real labels (all 1) and the time-flattened fake
unroll, of length (T+1) * B, against a target of (T+1) * B fake labels
(all 0); the reported loss is the sum of the two loss terms; in the
iteration trace a gradient-norm clip occurs after the real-loss
backward and before the fake-loss backward, another clip occurs after
the fake-loss backward and before the optimizer step, and the copy
into the evaluation-mode discriminator happens after the optimizer and
schedule steps. -/
theorem C9_discriminator_iteration (bce : List ℚ → List ℚ → ℚ)
    (dApply : List ℚ → List ℚ) (bSize tLen : Nat)
    (fake : List (List ℚ)) (real : List ℚ)
    (hflen : fake.length = tLen + 1)
    (hrows : ∀ r ∈ fake, r.length = bSize) :
    ((learnDIter bce dApply bSize tLen fake real).realTargets.length = bSize
      ∧ ∀ x ∈ (learnDIter bce dApply bSize tLen fake real).realTargets,
          x = 1)
    ∧ ((learnDIter bce dApply bSize tLen fake real).fakeTargets.length =
          (tLen + 1) * bSize
      ∧ ∀ x ∈ (learnDIter bce dApply bSize tLen fake real).fakeTargets,
          x = 0)
    ∧ (learnDIter bce dApply bSize tLen fake real).fakeInput.length =
        (tLen + 1) * bSize
    ∧ (learnDIter bce dApply bSize tLen fake real).realLossVal =
        bce (dApply real) (List.replicate bSize 1)
    ∧ (learnDIter bce dApply bSize tLen fake real).fakeLossVal =
        bce (dApply fake.flatten) (List.replicate ((tLen + 1) * bSize) 0)
    ∧ (learnDIter bce dApply bSize tLen fake real).reportedLoss =
        (learnDIter bce dApply bSize tLen fake real).realLossVal +
          (learnDIter bce dApply bSize tLen fake real).fakeLossVal
    ∧ (∃ i ∈ positions DEvent.clipGrad learnDTrace,
        firstIdx DEvent.realBackward learnDTrace < i
        ∧ i < firstIdx DEvent.fakeBackward learnDTrace)
    ∧ (∃ i ∈ positions DEvent.clipGrad learnDTrace,
        firstIdx DEvent.fakeBackward learnDTrace < i
        ∧ i < firstIdx DEvent.optStep learnDTrace)
    ∧ firstIdx DEvent.optStep learnDTrace <
        firstIdx DEvent.copyToEval learnDTrace
    ∧ firstIdx DEvent.schedStep learnDTrace <
        firstIdx DEvent.copyToEval learnDTrace := by
  refine ⟨⟨?_, ?_⟩, ⟨?_, ?_⟩, ?_, ?_, ?_, ?_, ?_, ?_, ?_, ?_⟩
  · simp [learnDIter]
  · intro x hx
    simp only [learnDIter] at hx
    have := List.eq_of_mem_replicate hx
    rw [this, realLabel]
  · simp [learnDIter, repeatList_replicate]
  · intro x hx
    simp only [learnDIter, repeatList_replicate] at hx
    have := List.eq_of_mem_replicate hx
    rw [this, fakeLabel]
  · simp only [learnDIter]
    rw [flatten_length_const bSize fake hrows, hflen]
  · simp [learnDIter, realLabel]
  · simp [learnDIter, fakeLabel, repeatList_replicate]
  · rfl
  · decide
  · decide
  · decide
  · decide

/-- C9, witness at a concrete iteration with batch size 2, unroll
length 1, fake unroll [[1, 2], [3, 4]] and real batch [5, 6]: the
real targets are [1, 1], the fake targets [0, 0, 0, 0], the
time-flattened fake input [1, 2, 3, 4], and the reported loss is the
sum of the two terms. -/
theorem C9_discriminator_witness :
    (learnDIter (fun l t => l.sum + t.sum) id 2 1
        [[1, 2], [3, 4]] [5, 6]).realTargets = [1, 1]
    ∧ (learnDIter (fun l t => l.sum + t.sum) id 2 1
        [[1, 2], [3, 4]] [5, 6]).fakeTargets = [0, 0, 0, 0]
    ∧ (learnDIter (fun l t => l.sum + t.sum) id 2 1
        [[1, 2], [3, 4]] [5, 6]).fakeInput = [1, 2, 3, 4]
    ∧ (learnDIter (fun l t => l.sum + t.sum) id 2 1
        [[1, 2], [3, 4]] [5, 6]).reportedLoss =
        (learnDIter (fun l t => l.sum + t.sum) id 2 1
          [[1, 2], [3, 4]] [5, 6]).realLossVal +
          (learnDIter (fun l t => l.sum + t.sum) id 2 1
            [[1, 2], [3, 4]] [5, 6]).fakeLossVal := by
  have h := C9_discriminator_iteration (fun l t => l.sum + t.sum) id 2 1
    [[1, 2], [3, 4]] [5, 6] rfl (by decide)
  exact ⟨rfl, rfl, rfl, h.2.2.2.2.2.1⟩

/-- C10: main checks the pipes_basename flag first; for every value
that does not start with the unix: scheme it raises the exception
before spawning environment servers or entering a mode (no action is
performed), and for every value with that scheme no such exception is
raised. -/
theorem C10_pipes_basename_guard (s mode : String) (srv : Bool) :
    (startsWithStr "unix:" s = false →
       (mainRun s mode srv).raised =
           some "--pipes_basename has to be of the form unix:/some/path."
       ∧ (mainRun s mode srv).events = [])
    ∧ (startsWithStr "unix:" s = true →
       (mainRun s mode srv).raised = none) := by
  constructor
  · intro h
    constructor <;> simp [mainRun, h]
  · intro h
    simp [mainRun, h]

/-- C10, witness: the value /tmp/polybeast raises the exception with no
action performed, the value unix:/tmp/polybeast does not raise it. -/
theorem C10_pipes_basename_witness :
    startsWithStr "unix:" "/tmp/polybeast" = false
    ∧ (mainRun "/tmp/polybeast" "train" true).raised =
        some "--pipes_basename has to be of the form unix:/some/path."
    ∧ (mainRun "/tmp/polybeast" "train" true).events = []
    ∧ startsWithStr "unix:" "unix:/tmp/polybeast" = true
    ∧ (mainRun "unix:/tmp/polybeast" "train" true).raised = none := by
  have h1 := C10_pipes_basename_guard "/tmp/polybeast" "train" true
  have h2 := C10_pipes_basename_guard "unix:/tmp/polybeast" "train" true
  exact ⟨by decide, (h1.1 (by decide)).1, (h1.1 (by decide)).2, by decide,
    h2.2 (by decide)⟩
